import Mathlib

/-!
Verification development for the analytics utilities of the Intervyo
interview-preparation platform (src/Backend/utils/analytics.js).

JavaScript numbers are modelled as exact rationals.  A value stored in a
score field may also be NaN or missing, which the inductive type JsVal
captures.  Math.round is modelled by Mathlib round (round half toward
positive infinity, Math.round x = floor (x + 1/2)), and Math.sqrt
composed with the rounding of the source is modelled by the computable
function jsSqrtRound100, proven below to agree with rounding
100 * Real.sqrt.  The stable Array.prototype.sort of JavaScript is
modelled by List.insertionSort with the relation induced by the
comparator.  Timestamps are integers counting milliseconds since the
epoch; setHours(0,0,0,0) is truncation of a timestamp to the start of
its UTC day.
-/

/-- Model of a JavaScript value stored in a numeric field: a finite
number, NaN, or a missing value such as undefined or null. -/
inductive JsVal where
  | num (q : ℚ)
  | nan
  | undef
deriving DecidableEq, Repr

/-- The entries of a list that pass the JavaScript filter
typeof s === "number" and not isNaN(s), projected to their values. -/
def validNums : List JsVal → List ℚ
  | [] => []
  | .num q :: rest => q :: validNums rest
  | .nan :: rest => validNums rest
  | .undef :: rest => validNums rest

/-- Model of the JavaScript idiom x || 0 applied to a score field: a
finite number keeps its value (0 stays 0), NaN and missing become 0. -/
def jsOr0 : JsVal → ℚ
  | .num q => q
  | _ => 0

/-- Rounding to two decimal places, Math.round(x * 100) / 100. -/
def roundTo2 (q : ℚ) : ℚ := (round (q * 100) : ℚ) / 100

/-- Embedding of calculateAverageScore: filter to the valid numeric
entries, return 0 for an empty or all-invalid list, otherwise the mean
rounded to two decimals. -/
def calculateAverageScore (scores : List JsVal) : ℚ :=
  if scores.isEmpty then 0
  else
    let validScores := validNums scores
    if validScores.isEmpty then 0
    else roundTo2 (validScores.sum / (validScores.length : ℚ))

/-- Embedding of calculatePercentile: share of the valid population
strictly below the given score, scaled to 0-100 and integer rounded. -/
def calculatePercentile (score : ℚ) (allScores : List JsVal) : ℤ :=
  if allScores.isEmpty then 0
  else
    let validScores := validNums allScores
    if validScores.isEmpty then 0
    else
      let sortedScores := List.insertionSort (fun a b : ℚ => a ≤ b) validScores
      let belowCount := (sortedScores.filter (fun s => s < score)).length
      round (((belowCount : ℚ) / (sortedScores.length : ℚ)) * 100)

/-- Computable model of Math.round(Math.sqrt v * 100) for a rational v,
expressed with the natural-number square root.  For v = a / b in lowest
terms this is the floor of (sqrt (40000 a b) + b) / (2 b). -/
def jsSqrtRound100 (v : ℚ) : ℤ :=
  ((Nat.sqrt (40000 * v.num.toNat * v.den) + v.den) / (2 * v.den) : ℕ)

/-- Embedding of calculateStandardDeviation: population standard
deviation of the valid entries (divide by N), rounded to two decimals,
and 0 for an empty or all-invalid list. -/
def calculateStandardDeviation (values : List JsVal) : ℚ :=
  if values.isEmpty then 0
  else
    let validValues := validNums values
    if validValues.isEmpty then 0
    else
      let mean := validValues.sum / (validValues.length : ℚ)
      let squaredDiffs := validValues.map (fun value => (value - mean) ^ 2)
      let avgSquaredDiff := squaredDiffs.sum / (validValues.length : ℚ)
      (jsSqrtRound100 avgSquaredDiff : ℚ) / 100

/-! ### Interview metrics (calculateInterviewMetrics) -/

/-- Input of calculateInterviewMetrics after applying the default values
of its destructuring (totalQuestions = 0, correctAnswers = 0,
duration = 0, scores = [], difficulty = "medium"). -/
structure InterviewData where
  totalQuestions : ℕ
  correctAnswers : ℕ
  duration : ℚ
  scores : List JsVal
  difficulty : String

/-- Model of String.prototype.toLowerCase, mapped over the characters. -/
def jsToLower (s : String) : String := String.mk (s.data.map Char.toLower)

/-- The difficulty multiplier table, looked up on the lowercased
difficulty with fallback 1.0 (no table entry is falsy, so the JavaScript
|| 1.0 fires exactly on a missing key). -/
def difficultyMultiplier (difficulty : String) : ℚ :=
  if jsToLower difficulty = "easy" then 0.8
  else if jsToLower difficulty = "medium" then 1.0
  else if jsToLower difficulty = "hard" then 1.3
  else if jsToLower difficulty = "expert" then 1.5
  else 1.0

/-- Result record of calculateInterviewMetrics. -/
structure InterviewMetrics where
  accuracy : ℤ
  averageScore : ℚ
  weightedScore : ℚ
  questionsPerMinute : ℚ
  grade : String
  totalQuestions : ℕ
  correctAnswers : ℕ
  duration : ℚ
  difficulty : String
deriving DecidableEq, Repr

/-- Embedding of calculateInterviewMetrics. -/
def calculateInterviewMetrics (d : InterviewData) : InterviewMetrics :=
  let accuracy : ℤ :=
    if d.totalQuestions > 0 then round (((d.correctAnswers : ℚ) / (d.totalQuestions : ℚ)) * 100)
    else 0
  let averageScore := calculateAverageScore d.scores
  let questionsPerMinute : ℚ :=
    if d.duration > 0 then roundTo2 ((d.totalQuestions : ℚ) / (d.duration / 60))
    else 0
  let multiplier := difficultyMultiplier d.difficulty
  let weightedScore := roundTo2 (averageScore * multiplier)
  let grade : String :=
    if weightedScore ≥ 90 then "A+"
    else if weightedScore ≥ 85 then "A"
    else if weightedScore ≥ 80 then "B+"
    else if weightedScore ≥ 75 then "B"
    else if weightedScore ≥ 70 then "C+"
    else if weightedScore ≥ 65 then "C"
    else if weightedScore ≥ 60 then "D"
    else "F"
  { accuracy := accuracy, averageScore := averageScore, weightedScore := weightedScore,
    questionsPerMinute := questionsPerMinute, grade := grade,
    totalQuestions := d.totalQuestions, correctAnswers := d.correctAnswers,
    duration := d.duration, difficulty := d.difficulty }

/-! ### Progress analytics (calculateProgressAnalytics) -/

/-- An interview record as consumed by the analytics: creation
timestamp in milliseconds, score value and skill tags. -/
structure Interview where
  createdAt : ℤ
  score : JsVal
  skills : List String
deriving DecidableEq, Repr

/-- Milliseconds per calendar day. -/
def msPerDay : ℤ := 86400000

/-- Model of Date setHours(0,0,0,0): truncate a millisecond timestamp to
the start of its calendar day. -/
def midnightOf (t : ℤ) : ℤ := (t.fdiv msPerDay) * msPerDay

/-- Per-skill aggregate used in topSkills and weakAreas. -/
structure SkillAverage where
  skill : String
  average : ℚ
  count : ℕ
deriving DecidableEq, Repr

/-- Result record of calculateProgressAnalytics.  The last three fields
are absent (undefined) on the empty-input path, hence Option. -/
structure ProgressResult where
  totalInterviews : ℕ
  averageScore : ℚ
  improvement : ℚ
  consistency : ℚ
  streak : ℕ
  topSkills : List SkillAverage
  weakAreas : List SkillAverage
  trend : String
  recentScores : Option (List ℚ)
  firstScore : Option ℚ
  latestScore : Option ℚ
deriving DecidableEq, Repr

/-- The streak loop of calculateProgressAnalytics: walk the date-sorted
interviews from latest to earliest; the two counters streak and
currentStreak advance together, so a single counter suffices.  The loop
continues while the day distance of the next interview from today
equals the number of interviews accepted so far. -/
def streakLoop (todayMid : ℤ) : List ℤ → ℤ → ℕ
  | [], _ => 0
  | t :: rest, currentStreak =>
    let daysDiff := (todayMid - midnightOf t).fdiv msPerDay
    if daysDiff = currentStreak then 1 + streakLoop todayMid rest (currentStreak + 1)
    else 0

/-- The interviews sorted ascending by creation date (stable, as
Array.prototype.sort). -/
def sortByDate (interviews : List Interview) : List Interview :=
  List.insertionSort (fun a b : Interview => a.createdAt ≤ b.createdAt) interviews

/-- The date-sorted score sequence: each score field coerced with
score || 0. -/
def sortedScores (interviews : List Interview) : List ℚ :=
  (sortByDate interviews).map (fun i => jsOr0 i.score)

/-- The distinct skill names in order of first appearance while walking
the date-sorted interviews (JavaScript object keys are insertion
ordered). -/
def skillNames (interviews : List Interview) : List String :=
  (interviews.flatMap (fun i => i.skills)).foldl
    (fun acc s => if s ∈ acc then acc else acc ++ [s]) []

/-- The per-skill aggregates, in key insertion order: for each skill the
scores (score || 0) of the date-sorted interviews tagged with it. -/
def skillAveragesOf (sorted : List Interview) : List SkillAverage :=
  (skillNames sorted).map fun sk =>
    let scoresOf := (sorted.filter (fun i => sk ∈ i.skills)).map (fun i => jsOr0 i.score)
    { skill := sk, average := calculateAverageScore (scoresOf.map JsVal.num),
      count := scoresOf.length }

/-- Embedding of calculateProgressAnalytics.  The clock value now is the
timestamp the source reads with new Date(). -/
def calculateProgressAnalytics (interviews : List Interview) (now : ℤ) : ProgressResult :=
  if interviews.isEmpty then
    { totalInterviews := 0, averageScore := 0, improvement := 0, consistency := 0,
      streak := 0, topSkills := [], weakAreas := [], trend := "neutral",
      recentScores := none, firstScore := none, latestScore := none }
  else
    let sortedInterviews := sortByDate interviews
    let scores := sortedInterviews.map (fun i => jsOr0 i.score)
    let averageScore := calculateAverageScore (scores.map JsVal.num)
    let consistency := 100 - calculateStandardDeviation (scores.map JsVal.num)
    let midPoint := scores.length / 2
    let firstHalfAvg := calculateAverageScore ((scores.take midPoint).map JsVal.num)
    let secondHalfAvg := calculateAverageScore ((scores.drop midPoint).map JsVal.num)
    let improvement := roundTo2 (secondHalfAvg - firstHalfAvg)
    let trend : String :=
      if improvement > 5 then "improving"
      else if improvement < -5 then "declining"
      else "neutral"
    let streak := streakLoop (midnightOf now) ((sortedInterviews.reverse).map (fun i => i.createdAt)) 0
    let skillAverages := skillAveragesOf sortedInterviews
    let ranked := List.insertionSort (fun a b : SkillAverage => b.average ≤ a.average) skillAverages
    let topSkills := ranked.take 5
    let weakAreas := (List.insertionSort (fun a b : SkillAverage => a.average ≤ b.average) ranked).take 5
    { totalInterviews := interviews.length, averageScore := averageScore,
      improvement := improvement, consistency := roundTo2 consistency,
      streak := streak, topSkills := topSkills, weakAreas := weakAreas, trend := trend,
      recentScores := some (scores.drop (scores.length - 10)),
      firstScore := some (scores.headD 0), latestScore := some (scores.getLastD 0) }

/-! ### Leaderboard rankings (calculateLeaderboardRankings) -/

/-- An interview as stored on a leaderboard user: only its score field
is read. -/
structure LbInterview where
  score : JsVal
deriving DecidableEq, Repr

/-- A leaderboard input user.  A missing interviews array in the source
is coerced to [] by the optional chaining with || [], so a plain list
models it. -/
structure LbUser where
  id : String
  name : String
  avatar : String
  interviews : List LbInterview
  badges : List String
deriving DecidableEq, Repr

/-- A user after the composite-scoring pass of the source (the first
map, before sorting). -/
structure LbScored where
  userId : String
  name : String
  avatar : String
  totalInterviews : ℕ
  averageScore : ℚ
  consistency : ℤ
  compositeScore : ℤ
  badges : List String
deriving DecidableEq, Repr

/-- A final leaderboard entry with rank and percentile attached. -/
structure LbEntry where
  userId : String
  name : String
  avatar : String
  totalInterviews : ℕ
  averageScore : ℚ
  consistency : ℤ
  compositeScore : ℤ
  badges : List String
  rank : ℕ
  percentile : ℤ
deriving DecidableEq, Repr

/-- Composite score of one user: 60 percent average score, 25 percent
consistency (100 minus standard deviation), 15 percent activity
(2 points per interview capped at 100), integer rounded. -/
def compositeScoreOf (user : LbUser) : ℤ :=
  let averageScore := calculateAverageScore (user.interviews.map (fun i => i.score))
  let consistency := 100 - calculateStandardDeviation (user.interviews.map (fun i => i.score))
  let activityScore : ℚ := min ((user.interviews.length : ℚ) * 2) 100
  round (averageScore * 0.6 + consistency * 0.25 + activityScore * 0.15)

/-- The scoring map of calculateLeaderboardRankings. -/
def scoreUser (user : LbUser) : LbScored :=
  { userId := user.id, name := user.name, avatar := user.avatar,
    totalInterviews := user.interviews.length,
    averageScore := calculateAverageScore (user.interviews.map (fun i => i.score)),
    consistency := round (100 - calculateStandardDeviation (user.interviews.map (fun i => i.score))),
    compositeScore := compositeScoreOf user,
    badges := user.badges }

/-- The final map of calculateLeaderboardRankings: attach rank
(index + 1) and the percentile of the composite score against the whole
composite-score population. -/
def rankLoop (population : List JsVal) : ℕ → List LbScored → List LbEntry
  | _, [] => []
  | index, u :: rest =>
    { userId := u.userId, name := u.name, avatar := u.avatar,
      totalInterviews := u.totalInterviews, averageScore := u.averageScore,
      consistency := u.consistency, compositeScore := u.compositeScore,
      badges := u.badges, rank := index + 1,
      percentile := calculatePercentile (u.compositeScore : ℚ) population }
      :: rankLoop population (index + 1) rest

/-- Embedding of calculateLeaderboardRankings. -/
def calculateLeaderboardRankings (users : List LbUser) : List LbEntry :=
  if users.isEmpty then []
  else
    let rankedUsers :=
      List.insertionSort (fun a b : LbScored => b.compositeScore ≤ a.compositeScore)
        (users.map scoreUser)
    rankLoop (rankedUsers.map (fun u => JsVal.num (u.compositeScore : ℚ))) 0 rankedUsers

/-! ### Skill gap analysis (calculateSkillGap) -/

/-- One entry of the gaps list. -/
structure GapEntry where
  skill : String
  currentLevel : ℚ
  targetLevel : ℚ
  gap : ℚ
  priority : String
deriving DecidableEq, Repr

/-- One entry of the strengths list. -/
structure StrengthEntry where
  skill : String
  currentLevel : ℚ
  targetLevel : ℚ
  surplus : ℚ
deriving DecidableEq, Repr

/-- The classification loop of calculateSkillGap over the entries of the
target-skills object, preserving entry order inside each output list. -/
def gapLoop (userSkills : String → ℚ) : List (String × ℚ) → List GapEntry × List StrengthEntry
  | [] => ([], [])
  | (skill, targetLevel) :: rest =>
    let tail := gapLoop userSkills rest
    let userLevel := userSkills skill
    let gap := targetLevel - userLevel
    if gap > 0 then
      ({ skill := skill, currentLevel := userLevel, targetLevel := targetLevel, gap := gap,
         priority := if gap > 30 then "high" else if gap > 15 then "medium" else "low" }
        :: tail.1, tail.2)
    else
      (tail.1,
       { skill := skill, currentLevel := userLevel, targetLevel := targetLevel,
         surplus := |gap| } :: tail.2)

/-- Result record of calculateSkillGap. -/
structure SkillGapResult where
  gaps : List GapEntry
  strengths : List StrengthEntry
  readinessScore : ℤ
  totalSkillsRequired : ℕ
  skillsMet : ℕ
  skillsToImprove : ℕ
  recommendations : List (String × String)
deriving DecidableEq, Repr

/-- Embedding of calculateSkillGap.  The user-skills object is modelled
as a total map, since userSkills[skill] || 0 turns a missing key into 0.
On an empty target object the readiness division 0 / 0 is NaN in
JavaScript; here rational division by zero gives 0, a value the claims
never consult. -/
def calculateSkillGap (userSkills : String → ℚ) (targetSkills : List (String × ℚ)) :
    SkillGapResult :=
  let pair := gapLoop userSkills targetSkills
  let gaps := List.insertionSort (fun a b : GapEntry => b.gap ≤ a.gap) pair.1
  let strengths := List.insertionSort (fun a b : StrengthEntry => b.surplus ≤ a.surplus) pair.2
  let total := targetSkills.length
  let highCount := (gaps.filter (fun g => g.priority = "high")).length
  let readinessScore := round ((((total : ℚ) - (highCount : ℚ)) / (total : ℚ)) * 100)
  { gaps := gaps, strengths := strengths, readinessScore := readinessScore,
    totalSkillsRequired := total, skillsMet := strengths.length,
    skillsToImprove := gaps.length,
    recommendations := (gaps.take 3).map fun g =>
      (g.skill,
       "Focus on improving " ++ g.skill ++ " - current gap is " ++ toString g.gap ++ " points") }

/-! ### Readiness score (calculateReadinessScore) -/

/-- Input of calculateReadinessScore after destructuring with defaults
interviews = [] and skills = []. -/
structure UserData where
  interviews : List Interview
  skills : List String
deriving DecidableEq, Repr

/-- The rounded component breakdown reported by calculateReadinessScore. -/
structure ReadinessBreakdown where
  practiceFrequency : ℤ
  averageScore : ℤ
  consistency : ℤ
  skillCoverage : ℤ
  recentImprovement : ℤ
deriving DecidableEq, Repr

/-- Result record of calculateReadinessScore. -/
structure ReadinessResult where
  readinessScore : ℤ
  readinessLevel : String
  breakdown : ReadinessBreakdown
  recommendations : List String
deriving DecidableEq, Repr

/-- Embedding of generateReadinessRecommendations: one message per
component below its threshold, in source order, with a fallback message
when none triggers. -/
def generateReadinessRecommendations (practiceFrequencyScore averageScoreComponent
    consistencyScore skillCoverageScore improvementScore : ℚ) : List String :=
  let recommendations :=
    (if practiceFrequencyScore < 50 then
      ["Increase your practice frequency - aim for at least 3-4 mock interviews per week"]
     else []) ++
    (if averageScoreComponent < 70 then
      ["Focus on improving your answer quality - review feedback from past interviews"]
     else []) ++
    (if consistencyScore < 60 then
      ["Work on consistency - your scores vary significantly between interviews"]
     else []) ++
    (if skillCoverageScore < 70 then
      ["Expand your skill set - practice interviews covering different technical areas"]
     else []) ++
    (if improvementScore < 50 then
      ["Your recent performance has declined - review fundamentals and take breaks to avoid burnout"]
     else [])
  if recommendations.isEmpty then
    ["Great job! Keep up the consistent practice and you\u0027ll be interview-ready soon"]
  else recommendations

/-- Embedding of calculateReadinessScore.  The clock value now models
new Date(); thirty days ago is now minus 30 days. -/
def calculateReadinessScore (userData : UserData) (now : ℤ) : ReadinessResult :=
  let progress := calculateProgressAnalytics userData.interviews now
  let thirtyDaysAgo := now - 30 * msPerDay
  let recentInterviews := userData.interviews.filter (fun i => thirtyDaysAgo ≤ i.createdAt)
  let practiceFrequencyScore : ℚ := min ((recentInterviews.length : ℚ) * 10) 100
  let averageScoreComponent := progress.averageScore
  let consistencyScore := progress.consistency
  let skillCoverageScore : ℚ := min (((userData.skills.length : ℚ) / 10) * 100) 100
  let improvementScore : ℚ := min (max (50 + progress.improvement) 0) 100
  let readinessScore := round
    (practiceFrequencyScore * 0.2 + averageScoreComponent * 0.3 + consistencyScore * 0.15 +
      skillCoverageScore * 0.2 + improvementScore * 0.15)
  let readinessLevel : String :=
    if readinessScore ≥ 85 then "Excellent"
    else if readinessScore ≥ 70 then "Good"
    else if readinessScore ≥ 55 then "Moderate"
    else if readinessScore ≥ 40 then "Needs Work"
    else "Not Ready"
  { readinessScore := readinessScore, readinessLevel := readinessLevel,
    breakdown := { practiceFrequency := round practiceFrequencyScore,
                   averageScore := round averageScoreComponent,
                   consistency := round consistencyScore,
                   skillCoverage := round skillCoverageScore,
                   recentImprovement := round improvementScore },
    recommendations := generateReadinessRecommendations practiceFrequencyScore
      averageScoreComponent consistencyScore skillCoverageScore improvementScore }

/-! ### Claim-side definitions -/

/-- Population variance of a list of rationals: the mean of the squared
deviations from the mean, dividing by N. -/
def populationVariance (v : List ℚ) : ℚ :=
  ((v.map (fun x => (x - v.sum / (v.length : ℚ)) ^ 2)).sum) / (v.length : ℚ)

/-- Day-based streak as worded in the specification: the number of
consecutive calendar days, walking backward from today (day 0), each of
which contains at least one interview, stopping at the first day with
none.  The fuel bound suffices because a streak never exceeds the number
of distinct interview days. -/
def claimStreakAux (days : List ℤ) : ℕ → ℤ → ℕ
  | 0, _ => 0
  | fuel + 1, d => if d ∈ days then 1 + claimStreakAux days fuel (d - 1) else 0

/-- Day-based streak: see claimStreakAux. -/
def claimStreak (interviews : List Interview) (now : ℤ) : ℕ :=
  claimStreakAux (interviews.map (fun i => (i.createdAt).fdiv msPerDay))
    (interviews.length + 1) ((now).fdiv msPerDay)

/-- Helper for evaluating round at a concrete rational. -/
theorem round_eq_of (q : ℚ) (n : ℤ) (h₁ : (n : ℚ) ≤ q + 1/2) (h₂ : q + 1/2 < n + 1) :
    round q = n := by
  rw [round_eq]
  exact Int.floor_eq_iff.mpr ⟨h₁, by exact_mod_cast h₂⟩

/-! ### Helper lemmas -/

theorem validNums_eq_filterMap (l : List JsVal) :
    validNums l = l.filterMap fun v =>
      match v with
      | .num q => some q
      | _ => none := by
  induction l with
  | nil => rfl
  | cons v rest ih => cases v <;> simp [validNums, ih]

theorem validNums_perm {l l' : List JsVal} (h : l.Perm l') :
    (validNums l).Perm (validNums l') := by
  rw [validNums_eq_filterMap, validNums_eq_filterMap]
  exact h.filterMap _

theorem jsSqrtRound100_eq (v : ℚ) (hv : 0 ≤ v) :
    jsSqrtRound100 v = round (100 * Real.sqrt (v : ℝ)) := by
  set a : ℕ := v.num.toNat with ha
  set b : ℕ := v.den with hb
  have hbpos : 0 < b := v.den_pos
  have hbR : (0:ℝ) < (b:ℝ) := by exact_mod_cast hbpos
  have hnum : (v.num : ℝ) = (a : ℝ) := by
    rw [ha]
    exact_mod_cast (Int.toNat_of_nonneg (Rat.num_nonneg.mpr hv)).symm
  have hcast : (v : ℝ) = (a : ℝ) / (b : ℝ) := by
    rw [Rat.cast_def v, hnum]
  set s : ℝ := Real.sqrt ((a : ℝ) * (b : ℝ)) with hs
  have hsnn : 0 ≤ s := Real.sqrt_nonneg _
  have hbs : (b : ℝ) * Real.sqrt ((a : ℝ) / (b : ℝ)) = s := by
    rw [hs, show (a : ℝ) * (b : ℝ) = ((b : ℝ) ^ 2) * ((a : ℝ) / (b : ℝ)) by field_simp; ring,
      Real.sqrt_mul (by positivity) _, Real.sqrt_sq hbR.le]
  have hkey : 100 * Real.sqrt (v : ℝ) + 1/2 = (200 * s + (b : ℝ)) / (2 * (b : ℝ)) := by
    rw [hcast, ← hbs]
    field_simp
    ring
  have h200 : 200 * s = Real.sqrt ((40000 * a * b : ℕ) : ℝ) := by
    rw [hs, ← Real.sqrt_sq (by norm_num : (0:ℝ) ≤ 200), ← Real.sqrt_mul (by positivity)]
    push_cast
    ring_nf
  have hx : (0:ℝ) ≤ 200 * s := by positivity
  have floor_nat : ∀ y : ℝ, 0 ≤ y → (⌊y⌋₊ : ℤ) = ⌊y⌋ := fun y hy => by
    rw [← Int.floor_toNat, Int.toNat_of_nonneg (Int.floor_nonneg.mpr hy)]
  have harg : (0:ℝ) ≤ (200 * s + (b : ℝ)) / (2 * (b : ℝ)) := by positivity
  rw [round_eq, hkey, ← floor_nat _ harg]
  have hdiv : (200 * s + (b : ℝ)) / (2 * (b : ℝ)) = (200 * s + (b : ℝ)) / ((2 * b : ℕ) : ℝ) := by
    push_cast
    ring_nf
  rw [hdiv, Nat.floor_div_nat, Nat.floor_add_nat hx, h200,
    Real.nat_floor_real_sqrt_eq_nat_sqrt]
  rfl

theorem jsSqrtRound100_nonneg (v : ℚ) : 0 ≤ jsSqrtRound100 v := by
  unfold jsSqrtRound100
  positivity

/-! ### C7: calculateAverageScore -/

/-- C7: for every list of scores, calculateAverageScore discards
non-numeric entries, returns 0 when the input is empty or every entry is
invalid, and otherwise returns the arithmetic mean of the remaining
entries rounded to 2 decimal places; Average [] = 0 and
Average [70, 80, 90] = 80. -/
theorem average_score_spec :
    (∀ scores : List JsVal,
      calculateAverageScore scores =
        if validNums scores = [] then 0
        else roundTo2 ((validNums scores).sum / ((validNums scores).length : ℚ)))
    ∧ calculateAverageScore [] = 0
    ∧ calculateAverageScore [.num 70, .num 80, .num 90] = 80 := by
  refine ⟨fun scores => ?_, rfl, ?_⟩
  · unfold calculateAverageScore
    match scores with
    | [] => simp [validNums]
    | v :: rest => simp [List.isEmpty_iff]
  · norm_num [calculateAverageScore, validNums, roundTo2]

/-! ### C9: calculatePercentile -/

/-- Closed form of calculatePercentile: the sort is dropped since it
changes neither the strict-below count nor the length. -/
theorem calculatePercentile_closed :
    ∀ (score : ℚ) (population : List JsVal),
      calculatePercentile score population =
        if validNums population = [] then 0
        else round ((100 * (((validNums population).filter (fun s => s < score)).length : ℚ)) /
          ((validNums population).length : ℚ)) := by
  intro score population
  unfold calculatePercentile
  match population with
  | [] => simp [validNums]
  | v :: rest =>
    simp only [List.isEmpty_cons, List.isEmpty_iff, if_false, Bool.false_eq_true]
    set valid := validNums (v :: rest) with hvalid
    by_cases hv : valid = []
    · simp [hv]
    · have hperm : (List.insertionSort (fun a b : ℚ => a ≤ b) valid).Perm valid :=
        List.perm_insertionSort _ _
      have hfil : ((List.insertionSort (fun a b : ℚ => a ≤ b) valid).filter
          (fun s => s < score)).length = (valid.filter (fun s => s < score)).length :=
        (hperm.filter _).length_eq
      have hlen : (List.insertionSort (fun a b : ℚ => a ≤ b) valid).length = valid.length :=
        List.length_insertionSort _ _
      simp only [hv, if_false, hfil, hlen]
      congr 1
      ring

/-- C9: for every score and population, calculatePercentile returns
round (100 * b / n) where n is the number of valid numeric entries of
the population and b the number of those strictly below the score, and 0
when the population is empty or has no valid entry. -/
theorem percentile_spec :
    ∀ (score : ℚ) (population : List JsVal),
      calculatePercentile score population =
        if validNums population = [] then 0
        else round ((100 * (((validNums population).filter (fun s => s < score)).length : ℚ)) /
          ((validNums population).length : ℚ)) :=
  calculatePercentile_closed

/-! ### C8: calculateStandardDeviation -/

theorem populationVariance_nonneg (v : List ℚ) : 0 ≤ populationVariance v := by
  unfold populationVariance
  apply div_nonneg _ (Nat.cast_nonneg _)
  apply List.sum_nonneg
  intro x hx
  obtain ⟨y, _, rfl⟩ := List.mem_map.1 hx
  positivity

/-- C8: for every list of values, calculateStandardDeviation returns the
population standard deviation of the valid numeric entries (mean squared
deviation over N, then square root) rounded to 2 decimal places, and 0
when the input is empty or has no valid entry; in particular
StandardDeviation [50, 50, 50] = 0. -/
theorem standard_deviation_spec :
    (∀ values : List JsVal,
      calculateStandardDeviation values =
        if validNums values = [] then 0
        else ((round (Real.sqrt ((populationVariance (validNums values) : ℚ) : ℝ) * 100) : ℤ) : ℚ)
          / 100)
    ∧ calculateStandardDeviation [.num 50, .num 50, .num 50] = 0 := by
  constructor
  · intro values
    unfold calculateStandardDeviation
    match values with
    | [] => simp [validNums]
    | v :: rest =>
      simp only [List.isEmpty_cons, List.isEmpty_iff, if_false, Bool.false_eq_true]
      set valid := validNums (v :: rest) with hvalid
      by_cases hv : valid = []
      · simp [hv]
      · simp only [hv, if_false]
        have hpv : (List.map (fun value => (value - valid.sum / (valid.length : ℚ)) ^ 2) valid).sum
            / (valid.length : ℚ) = populationVariance valid := rfl
        rw [hpv, jsSqrtRound100_eq _ (populationVariance_nonneg valid), mul_comm]
  · have h0 : jsSqrtRound100 0 = 0 := by
      unfold jsSqrtRound100
      norm_num
    norm_num [calculateStandardDeviation, validNums, h0]

/-! ### C3: calculateInterviewMetrics -/

/-- Letter grade thresholds as given in the specification. -/
def gradeFor (w : ℚ) : String :=
  if 90 ≤ w then "A+"
  else if 85 ≤ w then "A"
  else if 80 ≤ w then "B+"
  else if 75 ≤ w then "B"
  else if 70 ≤ w then "C+"
  else if 65 ≤ w then "C"
  else if 60 ≤ w then "D"
  else "F"

/-- C3: calculateInterviewMetrics computes
accuracy = round (100 * correct / total) (0 when total = 0),
averageScore through calculateAverageScore, weightedScore as the average
times the difficulty multiplier (0.8 easy, 1.0 medium, 1.3 hard,
1.5 expert, 1.0 otherwise) rounded to two decimals, and a grade from the
fixed thresholds; difficulty hard with average 70 gives weightedScore 91
and grade A+. -/
theorem interview_metrics_spec :
    ∀ d : InterviewData,
      ((calculateInterviewMetrics d).accuracy =
        if d.totalQuestions = 0 then 0
        else round ((100 * (d.correctAnswers : ℚ)) / (d.totalQuestions : ℚ)))
      ∧ (calculateInterviewMetrics d).averageScore = calculateAverageScore d.scores
      ∧ (calculateInterviewMetrics d).weightedScore =
          roundTo2 (calculateAverageScore d.scores * difficultyMultiplier d.difficulty)
      ∧ difficultyMultiplier d.difficulty =
          (if jsToLower d.difficulty = "easy" then 0.8
           else if jsToLower d.difficulty = "medium" then 1.0
           else if jsToLower d.difficulty = "hard" then 1.3
           else if jsToLower d.difficulty = "expert" then 1.5
           else 1.0)
      ∧ (calculateInterviewMetrics d).grade = gradeFor (calculateInterviewMetrics d).weightedScore
      ∧ ((calculateInterviewMetrics d).grade = "A+" ↔
          90 ≤ (calculateInterviewMetrics d).weightedScore)
      ∧ ((calculateInterviewMetrics d).grade = "F" ↔
          (calculateInterviewMetrics d).weightedScore < 60)
      ∧ (d.difficulty = "hard" → calculateAverageScore d.scores = 70 →
          (calculateInterviewMetrics d).weightedScore = 91
          ∧ (calculateInterviewMetrics d).grade = "A+") := by
  intro d
  refine ⟨?_, rfl, rfl, rfl, rfl, ?_, ?_, ?_⟩
  · show (if 0 < d.totalQuestions then
        round (((d.correctAnswers : ℚ) / (d.totalQuestions : ℚ)) * 100) else 0) = _
    rcases Nat.eq_zero_or_pos d.totalQuestions with h | h
    · simp [h]
    · rw [if_pos h, if_neg (Nat.pos_iff_ne_zero.mp h)]
      congr 1
      ring
  · show gradeFor (calculateInterviewMetrics d).weightedScore = "A+" ↔ _
    unfold gradeFor
    split_ifs with h1 h2 h3 h4 h5 h6 h7 <;> simp_all
  · show gradeFor (calculateInterviewMetrics d).weightedScore = "F" ↔ _
    unfold gradeFor
    split_ifs with h1 h2 h3 h4 h5 h6 h7 <;> simp_all <;> linarith
  · intro hdiff havg
    have hmul : difficultyMultiplier d.difficulty = 1.3 := by
      rw [hdiff]
      rfl
    have hw : (calculateInterviewMetrics d).weightedScore = 91 := by
      show roundTo2 (calculateAverageScore d.scores * difficultyMultiplier d.difficulty) = 91
      rw [havg, hmul]
      unfold roundTo2
      rw [show ((70 : ℚ) * 1.3 * 100) = ((9100:ℤ):ℚ) by norm_num, round_intCast]
      norm_num
    refine ⟨hw, ?_⟩
    show gradeFor (calculateInterviewMetrics d).weightedScore = "A+"
    rw [hw]
    norm_num [gradeFor]

/-! ### C10: calculateSkillGap -/

theorem gapLoop_fst_length (userSkills : String → ℚ) (targetSkills : List (String × ℚ)) :
    ((gapLoop userSkills targetSkills).1).length =
      (targetSkills.filter (fun p => 0 < p.2 - userSkills p.1)).length := by
  induction targetSkills with
  | nil => rfl
  | cons p rest ih =>
    obtain ⟨skill, targetLevel⟩ := p
    by_cases h : 0 < targetLevel - userSkills skill
    · have h2 : userSkills skill < targetLevel := sub_pos.mp h
      simp [gapLoop, h, h2, List.filter_cons, ih]
    · have h2 : ¬ userSkills skill < targetLevel := fun hc => h (sub_pos.mpr hc)
      simp [gapLoop, h, h2, List.filter_cons, ih]

theorem gapLoop_snd_length (userSkills : String → ℚ) (targetSkills : List (String × ℚ)) :
    ((gapLoop userSkills targetSkills).2).length =
      (targetSkills.filter (fun p => ¬ 0 < p.2 - userSkills p.1)).length := by
  induction targetSkills with
  | nil => rfl
  | cons p rest ih =>
    obtain ⟨skill, targetLevel⟩ := p
    by_cases h : 0 < targetLevel - userSkills skill
    · have h2 : ¬ targetLevel ≤ userSkills skill := fun hc => absurd h (by simp; linarith)
      simp [gapLoop, h, h2, List.filter_cons, ih]
    · have h2 : targetLevel ≤ userSkills skill := by
        have := not_lt.mp h
        linarith
      simp [gapLoop, h, h2, List.filter_cons, ih]

theorem gapLoop_length_add (userSkills : String → ℚ) (targetSkills : List (String × ℚ)) :
    ((gapLoop userSkills targetSkills).1).length + ((gapLoop userSkills targetSkills).2).length =
      targetSkills.length := by
  induction targetSkills with
  | nil => rfl
  | cons p rest ih =>
    obtain ⟨skill, targetLevel⟩ := p
    by_cases h : 0 < targetLevel - userSkills skill
    · simp only [gapLoop, h, if_pos, List.length_cons]
      omega
    · simp only [gapLoop, h, if_neg, List.length_cons, not_false_iff]
      omega

/-- C10: calculateSkillGap classifies each target skill into exactly one
of gaps (positive target minus user level) or strengths, so that
skillsMet + skillsToImprove = totalSkillsRequired = number of target
skills, the gaps list is sorted by non-increasing gap, and at most three
recommendations are emitted. -/
theorem skill_gap_spec :
    ∀ (userSkills : String → ℚ) (targetSkills : List (String × ℚ)),
      (calculateSkillGap userSkills targetSkills).totalSkillsRequired = targetSkills.length
      ∧ (calculateSkillGap userSkills targetSkills).skillsToImprove =
          (targetSkills.filter (fun p => 0 < p.2 - userSkills p.1)).length
      ∧ (calculateSkillGap userSkills targetSkills).skillsMet =
          (targetSkills.filter (fun p => ¬ 0 < p.2 - userSkills p.1)).length
      ∧ (calculateSkillGap userSkills targetSkills).skillsMet +
          (calculateSkillGap userSkills targetSkills).skillsToImprove =
          (calculateSkillGap userSkills targetSkills).totalSkillsRequired
      ∧ (((calculateSkillGap userSkills targetSkills).gaps.map (fun g => g.gap)).Sorted
          (fun a b => b ≤ a))
      ∧ (calculateSkillGap userSkills targetSkills).recommendations.length ≤ 3 := by
  intro userSkills targetSkills
  have hfst : ((calculateSkillGap userSkills targetSkills).gaps).length =
      ((gapLoop userSkills targetSkills).1).length := by
    show (List.insertionSort _ _).length = _
    rw [List.length_insertionSort]
  have hsnd : ((calculateSkillGap userSkills targetSkills).strengths).length =
      ((gapLoop userSkills targetSkills).2).length := by
    show (List.insertionSort _ _).length = _
    rw [List.length_insertionSort]
  refine ⟨rfl, ?_, ?_, ?_, ?_, ?_⟩
  · show ((calculateSkillGap userSkills targetSkills).gaps).length = _
    rw [hfst, gapLoop_fst_length]
  · show ((calculateSkillGap userSkills targetSkills).strengths).length = _
    rw [hsnd, gapLoop_snd_length]
  · show ((calculateSkillGap userSkills targetSkills).strengths).length +
        ((calculateSkillGap userSkills targetSkills).gaps).length = targetSkills.length
    rw [hfst, hsnd, Nat.add_comm, gapLoop_length_add]
  · have : ((calculateSkillGap userSkills targetSkills).gaps).Sorted
        (fun a b : GapEntry => b.gap ≤ a.gap) := by
      show (List.insertionSort _ _).Sorted _
      haveI : IsTotal GapEntry (fun a b : GapEntry => b.gap ≤ a.gap) :=
        ⟨fun a b => le_total b.gap a.gap⟩
      haveI : IsTrans GapEntry (fun a b : GapEntry => b.gap ≤ a.gap) :=
        ⟨fun _ _ _ h₁ h₂ => le_trans h₂ h₁⟩
      exact List.sorted_insertionSort _ _
    unfold List.Sorted at this ⊢
    exact (List.pairwise_map).mpr this
  · show ((((calculateSkillGap userSkills targetSkills).gaps).take 3).map _).length ≤ 3
    rw [List.length_map]
    exact List.length_take_le 3 _

/-! ### C4: improvement split and trend -/

theorem calculateAverageScore_hundredths (l : List JsVal) :
    ∃ k : ℤ, calculateAverageScore l = (k : ℚ) / 100 := by
  unfold calculateAverageScore
  by_cases h1 : l.isEmpty
  · rw [if_pos h1]
    exact ⟨0, by norm_num⟩
  · rw [if_neg h1]
    show ∃ k : ℤ, (if (validNums l).isEmpty then (0:ℚ)
      else roundTo2 ((validNums l).sum / ((validNums l).length : ℚ))) = (k : ℚ) / 100
    by_cases h2 : (validNums l).isEmpty
    · rw [if_pos h2]
      exact ⟨0, by norm_num⟩
    · rw [if_neg h2]
      exact ⟨round ((validNums l).sum / ((validNums l).length : ℚ) * 100), rfl⟩

theorem roundTo2_hundredths (k : ℤ) : roundTo2 ((k : ℚ) / 100) = (k : ℚ) / 100 := by
  unfold roundTo2
  rw [div_mul_cancel₀ _ (by norm_num : (100:ℚ) ≠ 0), round_intCast]

/-- C4: calculateProgressAnalytics splits the date-sorted score sequence
at midpoint floor (n / 2), sets improvement to the difference of the
half averages, classifies the trend as improving when improvement
exceeds 5, declining below -5 and neutral otherwise, and returns the
explicit zeroed record on empty input. -/
theorem progress_improvement_trend_spec :
    (∀ now : ℤ, calculateProgressAnalytics [] now =
      { totalInterviews := 0, averageScore := 0, improvement := 0, consistency := 0,
        streak := 0, topSkills := [], weakAreas := [], trend := "neutral",
        recentScores := none, firstScore := none, latestScore := none })
    ∧ (∀ (interviews : List Interview) (now : ℤ), interviews ≠ [] →
        ((calculateProgressAnalytics interviews now).improvement =
          calculateAverageScore
            (((sortedScores interviews).drop ((sortedScores interviews).length / 2)).map JsVal.num)
          - calculateAverageScore
            (((sortedScores interviews).take ((sortedScores interviews).length / 2)).map JsVal.num))
        ∧ ((calculateProgressAnalytics interviews now).trend = "improving" ↔
            5 < (calculateProgressAnalytics interviews now).improvement)
        ∧ ((calculateProgressAnalytics interviews now).trend = "declining" ↔
            (calculateProgressAnalytics interviews now).improvement < -5)
        ∧ ((calculateProgressAnalytics interviews now).trend = "neutral" ↔
            (-5 ≤ (calculateProgressAnalytics interviews now).improvement ∧
             (calculateProgressAnalytics interviews now).improvement ≤ 5))) := by
  constructor
  · intro now
    rfl
  · intro interviews now hne
    have hfalse : interviews.isEmpty = false := by
      simp [List.isEmpty_iff, hne]
    obtain ⟨k1, hk1⟩ := calculateAverageScore_hundredths
      (((sortedScores interviews).take ((sortedScores interviews).length / 2)).map JsVal.num)
    obtain ⟨k2, hk2⟩ := calculateAverageScore_hundredths
      (((sortedScores interviews).drop ((sortedScores interviews).length / 2)).map JsVal.num)
    have hstep : (calculateProgressAnalytics interviews now).improvement =
        roundTo2 (calculateAverageScore
            (((sortedScores interviews).drop ((sortedScores interviews).length / 2)).map JsVal.num)
          - calculateAverageScore
            (((sortedScores interviews).take ((sortedScores interviews).length / 2)).map JsVal.num)) := by
      unfold calculateProgressAnalytics
      rw [hfalse]
      rfl
    have himp : (calculateProgressAnalytics interviews now).improvement =
        calculateAverageScore
          (((sortedScores interviews).drop ((sortedScores interviews).length / 2)).map JsVal.num)
        - calculateAverageScore
          (((sortedScores interviews).take ((sortedScores interviews).length / 2)).map JsVal.num) := by
      rw [hstep, hk1, hk2,
        show ((k2:ℚ)/100 - (k1:ℚ)/100) = (((k2 - k1 : ℤ)):ℚ)/100 by push_cast; ring,
        roundTo2_hundredths]
    have htrend : (calculateProgressAnalytics interviews now).trend =
        (if 5 < (calculateProgressAnalytics interviews now).improvement then "improving"
         else if (calculateProgressAnalytics interviews now).improvement < -5 then "declining"
         else "neutral") := by
      unfold calculateProgressAnalytics
      rw [hfalse]
      rfl
    refine ⟨himp, ?_, ?_, ?_⟩
    · rw [htrend]
      split_ifs with h1 h2
      · exact iff_of_true rfl h1
      · exact iff_of_false (by decide) h1
      · exact iff_of_false (by decide) h1
    · rw [htrend]
      split_ifs with h1 h2
      · exact iff_of_false (by decide) (by intro h; linarith)
      · exact iff_of_true rfl h2
      · exact iff_of_false (by decide) h2
    · rw [htrend]
      split_ifs with h1 h2
      · refine iff_of_false (by decide) ?_
        rintro ⟨-, hb⟩
        linarith
      · refine iff_of_false (by decide) ?_
        rintro ⟨ha, -⟩
        linarith
      · exact iff_of_true rfl ⟨by linarith, by linarith⟩

/-! ### C2: the practice streak -/

/-- C2 (code bug): on three interviews, two on the same calendar day as
today and one on the previous day, the source loop returns a streak of
1, while the day-based count of the specification is 2: the loop breaks
as soon as a second interview of an already-counted day appears, because
the day distance of that interview no longer matches the advancing
counter. -/
theorem progress_streak_same_day_bug :
    (calculateProgressAnalytics
      [⟨1, .num 50, []⟩, ⟨0, .num 60, []⟩, ⟨-86400000, .num 70, []⟩] 0).streak = 1
    ∧ claimStreak [⟨1, .num 50, []⟩, ⟨0, .num 60, []⟩, ⟨-86400000, .num 70, []⟩] 0 = 2 := by
  constructor
  · show (streakLoop (midnightOf 0)
      (((sortByDate [⟨1, .num 50, []⟩, ⟨0, .num 60, []⟩, ⟨-86400000, .num 70, []⟩]).reverse).map
        (fun i => i.createdAt)) 0) = 1
    decide
  · decide

/-! ### C5: readiness score -/

/-- C5: calculateReadinessScore combines the five components with the
fixed weights 0.2, 0.3, 0.15, 0.2, 0.15 and integer-rounds the sum,
where practiceFrequency is min (10 * interviews in the trailing 30
days) 100, skillCoverage is min (100 * skillCount / 10) 100 and
recentImprovement is the improvement clamped into 0..100 around 50; the
readiness level follows the fixed thresholds 85, 70, 55 and 40. -/
theorem readiness_score_spec :
    ∀ (u : UserData) (now : ℤ),
      ((calculateReadinessScore u now).readinessScore =
        round (0.2 * min (10 * ((u.interviews.filter
              (fun i => now - 30 * msPerDay ≤ i.createdAt)).length : ℚ)) 100
          + 0.3 * (calculateProgressAnalytics u.interviews now).averageScore
          + 0.15 * (calculateProgressAnalytics u.interviews now).consistency
          + 0.2 * min (100 * (u.skills.length : ℚ) / 10) 100
          + 0.15 * min (max (50 + (calculateProgressAnalytics u.interviews now).improvement) 0)
              100))
      ∧ ((calculateReadinessScore u now).readinessLevel = "Excellent" ↔
          85 ≤ (calculateReadinessScore u now).readinessScore)
      ∧ ((calculateReadinessScore u now).readinessLevel = "Good" ↔
          70 ≤ (calculateReadinessScore u now).readinessScore ∧
          (calculateReadinessScore u now).readinessScore < 85)
      ∧ ((calculateReadinessScore u now).readinessLevel = "Moderate" ↔
          55 ≤ (calculateReadinessScore u now).readinessScore ∧
          (calculateReadinessScore u now).readinessScore < 70)
      ∧ ((calculateReadinessScore u now).readinessLevel = "Needs Work" ↔
          40 ≤ (calculateReadinessScore u now).readinessScore ∧
          (calculateReadinessScore u now).readinessScore < 55)
      ∧ ((calculateReadinessScore u now).readinessLevel = "Not Ready" ↔
          (calculateReadinessScore u now).readinessScore < 40) := by
  intro u now
  have hscore : (calculateReadinessScore u now).readinessScore =
      round (0.2 * min (10 * ((u.interviews.filter
            (fun i => now - 30 * msPerDay ≤ i.createdAt)).length : ℚ)) 100
        + 0.3 * (calculateProgressAnalytics u.interviews now).averageScore
        + 0.15 * (calculateProgressAnalytics u.interviews now).consistency
        + 0.2 * min (100 * (u.skills.length : ℚ) / 10) 100
        + 0.15 * min (max (50 + (calculateProgressAnalytics u.interviews now).improvement) 0)
            100) := by
    show round _ = round _
    congr 1
    rw [mul_comm ((((u.interviews.filter
          (fun i => now - 30 * msPerDay ≤ i.createdAt)).length : ℕ)) : ℚ) 10,
      show ((100:ℚ) * (u.skills.length : ℚ) / 10) = ((u.skills.length : ℚ) / 10) * 100 by ring]
    ring
  have hlevel : (calculateReadinessScore u now).readinessLevel =
      (if 85 ≤ (calculateReadinessScore u now).readinessScore then "Excellent"
       else if 70 ≤ (calculateReadinessScore u now).readinessScore then "Good"
       else if 55 ≤ (calculateReadinessScore u now).readinessScore then "Moderate"
       else if 40 ≤ (calculateReadinessScore u now).readinessScore then "Needs Work"
       else "Not Ready") := rfl
  refine ⟨hscore, ?_, ?_, ?_, ?_, ?_⟩ <;> rw [hlevel] <;> split_ifs with h1 h2 h3 h4
  · exact iff_of_true rfl h1
  · exact iff_of_false (by decide) h1
  · exact iff_of_false (by decide) h1
  · exact iff_of_false (by decide) h1
  · exact iff_of_false (by decide) h1
  · exact iff_of_false (by decide) (by rintro ⟨-, hb⟩; omega)
  · exact iff_of_true rfl ⟨h2, by omega⟩
  · exact iff_of_false (by decide) (by rintro ⟨ha, -⟩; omega)
  · exact iff_of_false (by decide) (by rintro ⟨ha, -⟩; omega)
  · exact iff_of_false (by decide) (by rintro ⟨ha, -⟩; omega)
  · exact iff_of_false (by decide) (by rintro ⟨-, hb⟩; omega)
  · exact iff_of_false (by decide) (by rintro ⟨-, hb⟩; omega)
  · exact iff_of_true rfl ⟨h3, by omega⟩
  · exact iff_of_false (by decide) (by rintro ⟨ha, -⟩; omega)
  · exact iff_of_false (by decide) (by rintro ⟨ha, -⟩; omega)
  · exact iff_of_false (by decide) (by rintro ⟨-, hb⟩; omega)
  · exact iff_of_false (by decide) (by rintro ⟨-, hb⟩; omega)
  · exact iff_of_false (by decide) (by rintro ⟨-, hb⟩; omega)
  · exact iff_of_true rfl ⟨h4, by omega⟩
  · exact iff_of_false (by decide) (by rintro ⟨ha, -⟩; omega)
  · exact iff_of_false (by decide) (by omega)
  · exact iff_of_false (by decide) (by omega)
  · exact iff_of_false (by decide) (by omega)
  · exact iff_of_false (by decide) (by omega)
  · exact iff_of_true rfl (by omega)

/-! ### C6: readiness components, bounds -/

theorem round_le_round {x y : ℚ} (h : x ≤ y) : round x ≤ round y := by
  rw [round_eq, round_eq]
  exact Int.floor_le_floor (by linarith)

theorem round_bounds {q : ℚ} (h0 : 0 ≤ q) (h1 : q ≤ 100) :
    0 ≤ round q ∧ round q ≤ 100 := by
  constructor
  · have := round_le_round h0
    simpa using this
  · have := round_le_round h1
    rw [show ((100:ℚ)) = ((100:ℤ):ℚ) by norm_num, round_intCast] at this
    exact this

theorem roundTo2_bounds {q : ℚ} (h0 : 0 ≤ q) (h1 : q ≤ 100) :
    0 ≤ roundTo2 q ∧ roundTo2 q ≤ 100 := by
  unfold roundTo2
  have ha : (0:ℤ) ≤ round (q * 100) := by
    have := round_le_round (by linarith : (0:ℚ) ≤ q * 100)
    simpa using this
  have hb : round (q * 100) ≤ 10000 := by
    have := round_le_round (by linarith : q * 100 ≤ 10000)
    rw [show ((10000:ℚ)) = ((10000:ℤ):ℚ) by norm_num, round_intCast] at this
    exact this
  constructor
  · positivity
  · rw [div_le_iff₀ (by norm_num : (0:ℚ) < 100)]
    calc ((round (q * 100) : ℤ) : ℚ) ≤ ((10000:ℤ):ℚ) := by exact_mod_cast hb
    _ = 100 * 100 := by norm_num

theorem validNums_map_num (l : List ℚ) : validNums (l.map JsVal.num) = l := by
  induction l with
  | nil => rfl
  | cons x rest ih => simp [validNums, ih]

theorem calculateAverageScore_bounds {l : List ℚ} (h : ∀ x ∈ l, 0 ≤ x ∧ x ≤ 100) :
    0 ≤ calculateAverageScore (l.map JsVal.num) ∧
      calculateAverageScore (l.map JsVal.num) ≤ 100 := by
  unfold calculateAverageScore
  by_cases hl : (l.map JsVal.num).isEmpty
  · rw [if_pos hl]
    norm_num
  · rw [if_neg hl]
    show 0 ≤ (if (validNums (l.map JsVal.num)).isEmpty then (0:ℚ)
        else roundTo2 ((validNums (l.map JsVal.num)).sum /
          ((validNums (l.map JsVal.num)).length : ℚ))) ∧ _
    rw [validNums_map_num]
    by_cases he : l.isEmpty
    · rw [if_pos he]
      norm_num
    · rw [if_neg he]
      have hne : l ≠ [] := by simpa [List.isEmpty_iff] using he
      have hlen : (0:ℚ) < (l.length : ℚ) := by
        have := List.length_pos.mpr hne
        exact_mod_cast this
      have hsum0 : 0 ≤ l.sum := List.sum_nonneg fun x hx => (h x hx).1
      have hsum100 : l.sum ≤ 100 * (l.length : ℚ) := by
        calc l.sum ≤ l.length • (100:ℚ) :=
          List.sum_le_card_nsmul l 100 fun x hx => (h x hx).2
        _ = 100 * (l.length : ℚ) := by
          rw [nsmul_eq_mul]
          ring
      exact roundTo2_bounds (by positivity)
        (by rw [div_le_iff₀ hlen]; linarith)

theorem populationVariance_le_10000 {l : List ℚ} (hne : l ≠ [])
    (h : ∀ x ∈ l, 0 ≤ x ∧ x ≤ 100) : populationVariance l ≤ 10000 := by
  unfold populationVariance
  have hlen : (0:ℚ) < (l.length : ℚ) := by
    have := List.length_pos.mpr hne
    exact_mod_cast this
  have hsum0 : 0 ≤ l.sum := List.sum_nonneg fun x hx => (h x hx).1
  have hsum100 : l.sum ≤ 100 * (l.length : ℚ) := by
    calc l.sum ≤ l.length • (100:ℚ) :=
      List.sum_le_card_nsmul l 100 fun x hx => (h x hx).2
    _ = 100 * (l.length : ℚ) := by rw [nsmul_eq_mul]; ring
  have hmean0 : 0 ≤ l.sum / (l.length : ℚ) := by positivity
  have hmean100 : l.sum / (l.length : ℚ) ≤ 100 := by
    rw [div_le_iff₀ hlen]; linarith
  have hsq : ∀ y ∈ l.map (fun x => (x - l.sum / (l.length : ℚ)) ^ 2), y ≤ 10000 := by
    intro y hy
    obtain ⟨x, hx, rfl⟩ := List.mem_map.1 hy
    have h1 := (h x hx).1
    have h2 := (h x hx).2
    nlinarith [sq_nonneg (x - l.sum / (l.length : ℚ))]
  have hsumsq : (l.map (fun x => (x - l.sum / (l.length : ℚ)) ^ 2)).sum ≤
      (l.map (fun x => (x - l.sum / (l.length : ℚ)) ^ 2)).length • (10000:ℚ) :=
    List.sum_le_card_nsmul _ 10000 hsq
  rw [List.length_map, nsmul_eq_mul] at hsumsq
  rw [div_le_iff₀ hlen]
  linarith

theorem jsSqrtRound100_le_10000 {v : ℚ} (h0 : 0 ≤ v) (h1 : v ≤ 10000) :
    jsSqrtRound100 v ≤ 10000 := by
  rw [jsSqrtRound100_eq v h0]
  have hsqrt : Real.sqrt (v : ℝ) ≤ 100 := by
    calc Real.sqrt (v : ℝ) ≤ Real.sqrt ((10000 : ℚ) : ℝ) :=
      Real.sqrt_le_sqrt (by exact_mod_cast h1)
    _ = 100 := by
      rw [show (((10000:ℚ)):ℝ) = (100:ℝ)^2 by norm_num, Real.sqrt_sq (by norm_num)]
  have : round (100 * Real.sqrt (v : ℝ)) ≤ round ((10000:ℝ)) := by
    rw [round_eq, round_eq]
    exact Int.floor_le_floor (by linarith)
  rwa [show ((10000:ℝ)) = ((10000:ℤ):ℝ) by norm_num, round_intCast] at this

theorem calculateStandardDeviation_bounds {l : List ℚ} (h : ∀ x ∈ l, 0 ≤ x ∧ x ≤ 100) :
    0 ≤ calculateStandardDeviation (l.map JsVal.num) ∧
      calculateStandardDeviation (l.map JsVal.num) ≤ 100 := by
  unfold calculateStandardDeviation
  by_cases hl : (l.map JsVal.num).isEmpty
  · rw [if_pos hl]
    norm_num
  · rw [if_neg hl]
    show 0 ≤ (if (validNums (l.map JsVal.num)).isEmpty then (0:ℚ) else _) ∧ _
    rw [validNums_map_num]
    by_cases he : l.isEmpty
    · rw [if_pos he]
      norm_num
    · rw [if_neg he]
      show 0 ≤ (jsSqrtRound100 (populationVariance l) : ℚ) / 100 ∧
        (jsSqrtRound100 (populationVariance l) : ℚ) / 100 ≤ 100
      have hne : l ≠ [] := by simpa [List.isEmpty_iff] using he
      have h0 := populationVariance_nonneg l
      have h1 := populationVariance_le_10000 hne h
      have hj0 := jsSqrtRound100_nonneg (populationVariance l)
      have hj1 := jsSqrtRound100_le_10000 h0 h1
      have hcast0 : (0:ℚ) ≤ ((jsSqrtRound100 (populationVariance l) : ℤ) : ℚ) := by
        exact_mod_cast hj0
      have hcast1 : ((jsSqrtRound100 (populationVariance l) : ℤ) : ℚ) ≤ 10000 := by
        exact_mod_cast hj1
      constructor
      · positivity
      · rw [div_le_iff₀ (by norm_num : (0:ℚ) < 100)]
        linarith

/-- C6 (amended): the components practiceFrequency, skillCoverage and
recentImprovement of the readiness breakdown always lie in 0..100; the
components averageScore and consistency lie in 0..100 provided every
interview score (missing treated as 0) lies in 0..100. -/
theorem readiness_breakdown_bounds :
    (∀ (u : UserData) (now : ℤ),
      (0 ≤ (calculateReadinessScore u now).breakdown.practiceFrequency
        ∧ (calculateReadinessScore u now).breakdown.practiceFrequency ≤ 100)
      ∧ (0 ≤ (calculateReadinessScore u now).breakdown.skillCoverage
        ∧ (calculateReadinessScore u now).breakdown.skillCoverage ≤ 100)
      ∧ (0 ≤ (calculateReadinessScore u now).breakdown.recentImprovement
        ∧ (calculateReadinessScore u now).breakdown.recentImprovement ≤ 100))
    ∧ (∀ (u : UserData) (now : ℤ),
        (∀ i ∈ u.interviews, 0 ≤ jsOr0 i.score ∧ jsOr0 i.score ≤ 100) →
        (0 ≤ (calculateReadinessScore u now).breakdown.averageScore
          ∧ (calculateReadinessScore u now).breakdown.averageScore ≤ 100)
        ∧ (0 ≤ (calculateReadinessScore u now).breakdown.consistency
          ∧ (calculateReadinessScore u now).breakdown.consistency ≤ 100)) := by
  constructor
  · intro u now
    refine ⟨?_, ?_, ?_⟩
    · show 0 ≤ round (min (((u.interviews.filter
          (fun i => now - 30 * msPerDay ≤ i.createdAt)).length : ℚ) * 10) 100) ∧ _
      exact round_bounds (le_min (by positivity) (by norm_num)) (min_le_right _ _)
    · show 0 ≤ round (min (((u.skills.length : ℚ) / 10) * 100) 100) ∧ _
      exact round_bounds (le_min (by positivity) (by norm_num)) (min_le_right _ _)
    · show 0 ≤ round (min (max (50 + (calculateProgressAnalytics u.interviews now).improvement)
          0) 100) ∧ _
      exact round_bounds (le_min (le_max_right _ _) (by norm_num)) (min_le_right _ _)
  · intro u now hscores
    have hb : ∀ x ∈ sortedScores u.interviews, 0 ≤ x ∧ x ≤ 100 := by
      intro x hx
      obtain ⟨i, hi, rfl⟩ := List.mem_map.1 hx
      have : i ∈ u.interviews := by
        have := hi
        unfold sortByDate at this
        simpa using this
      exact hscores i this
    have hpa : (calculateReadinessScore u now).breakdown.averageScore =
        round ((calculateProgressAnalytics u.interviews now).averageScore) := rfl
    have hpc : (calculateReadinessScore u now).breakdown.consistency =
        round ((calculateProgressAnalytics u.interviews now).consistency) := rfl
    by_cases he : u.interviews = []
    · have h1 : (calculateProgressAnalytics u.interviews now).averageScore = 0 := by
        rw [he]
        rfl
      have h2 : (calculateProgressAnalytics u.interviews now).consistency = 0 := by
        rw [he]
        rfl
      rw [hpa, hpc, h1, h2]
      norm_num
    · have hfalse : u.interviews.isEmpty = false := by
        simp [List.isEmpty_iff, he]
      have havg : (calculateProgressAnalytics u.interviews now).averageScore =
          calculateAverageScore ((sortedScores u.interviews).map JsVal.num) := by
        unfold calculateProgressAnalytics
        rw [hfalse]
        rfl
      have hcons : (calculateProgressAnalytics u.interviews now).consistency =
          roundTo2 (100 - calculateStandardDeviation
            ((sortedScores u.interviews).map JsVal.num)) := by
        unfold calculateProgressAnalytics
        rw [hfalse]
        rfl
      obtain ⟨ha0, ha1⟩ := calculateAverageScore_bounds hb
      obtain ⟨hs0, hs1⟩ := calculateStandardDeviation_bounds hb
      obtain ⟨hr0, hr1⟩ := roundTo2_bounds
        (by linarith : (0:ℚ) ≤ 100 - calculateStandardDeviation
          ((sortedScores u.interviews).map JsVal.num))
        (by linarith)
      constructor
      · rw [hpa, havg]
        exact round_bounds ha0 ha1
      · rw [hpc, hcons]
        exact round_bounds hr0 hr1

/-- C6 (counterexample): with a single interview whose score is 250, the
reported averageScore component of the readiness breakdown is 250, far
outside the 0..100 range the claim asserts. -/
theorem readiness_component_out_of_range :
    ¬ ((calculateReadinessScore ⟨[⟨0, .num 250, []⟩], []⟩ 0).breakdown.averageScore ≤ 100) := by
  have h1 : (calculateReadinessScore ⟨[⟨0, .num 250, []⟩], []⟩ 0).breakdown.averageScore =
      round (calculateAverageScore [.num 250]) := rfl
  have h2 : calculateAverageScore [.num 250] = 250 := by
    norm_num [calculateAverageScore, validNums, roundTo2,
      show ((250:ℚ) / 1 * 100) = ((25000:ℤ):ℚ) by norm_num, round_intCast]
  rw [h1, h2, show ((250:ℚ)) = ((250:ℤ):ℚ) by norm_num, round_intCast]
  norm_num

/-! ### C1: leaderboard rankings -/

theorem rankLoop_map_rank (population : List JsVal) :
    ∀ (index : ℕ) (l : List LbScored),
      (rankLoop population index l).map (fun e => e.rank) =
        List.range' (index + 1) l.length := by
  intro index l
  induction l generalizing index with
  | nil => rfl
  | cons u rest ih =>
    show (index + 1) :: (rankLoop population (index + 1) rest).map (fun e => e.rank) = _
    rw [ih (index + 1), List.length_cons, List.range'_succ]

theorem rankLoop_map_composite (population : List JsVal) :
    ∀ (index : ℕ) (l : List LbScored),
      (rankLoop population index l).map (fun e => e.compositeScore) =
        l.map (fun u => u.compositeScore) := by
  intro index l
  induction l generalizing index with
  | nil => rfl
  | cons u rest ih =>
    show u.compositeScore :: (rankLoop population (index + 1) rest).map
        (fun e => e.compositeScore) = _
    rw [ih (index + 1)]
    rfl

theorem rankLoop_percentile (population : List JsVal) :
    ∀ (index : ℕ) (l : List LbScored), ∀ e ∈ rankLoop population index l,
      ∃ u ∈ l, e.compositeScore = u.compositeScore ∧
        e.percentile = calculatePercentile (u.compositeScore : ℚ) population := by
  intro index l
  induction l generalizing index with
  | nil => intro e he; cases he
  | cons u rest ih =>
    intro e he
    rcases List.mem_cons.1 he with rfl | he
    · exact ⟨u, List.mem_cons_self u rest, rfl, rfl⟩
    · obtain ⟨w, hw, h1, h2⟩ := ih (index + 1) e he
      exact ⟨w, List.mem_cons_of_mem u hw, h1, h2⟩

theorem calculatePercentile_perm (score : ℚ) {p1 p2 : List JsVal} (h : p1.Perm p2) :
    calculatePercentile score p1 = calculatePercentile score p2 := by
  have hval := validNums_perm h
  rw [calculatePercentile_closed, calculatePercentile_closed]
  by_cases hv : validNums p1 = []
  · have hv2 : validNums p2 = [] := by
      rw [hv] at hval
      exact hval.symm.eq_nil
    rw [hv, hv2]
  · have hv2 : validNums p2 ≠ [] := by
      intro hc
      rw [hc] at hval
      exact hv hval.eq_nil
    rw [if_neg hv, if_neg hv2, (hval.filter _).length_eq, hval.length_eq]

/-- C1: calculateLeaderboardRankings scores each user with the weighted
composite formula, returns the users in non-increasing order of
compositeScore with rank fields exactly 1..n (ties get distinct
consecutive ranks), attaches the percentile of each composite score
against the composite scores of all users, gives users with identical
interview lists equal composite scores, and on a two-user list of
identical users assigns the consecutive ranks 1 and 2. -/
theorem leaderboard_rankings_spec :
    (∀ users : List LbUser, users ≠ [] →
      ((calculateLeaderboardRankings users).map (fun e => e.rank) =
          List.range' 1 users.length)
      ∧ (((calculateLeaderboardRankings users).map (fun e => e.compositeScore)).Sorted
          (fun a b => b ≤ a))
      ∧ (((calculateLeaderboardRankings users).map (fun e => e.compositeScore)).Perm
          (users.map compositeScoreOf))
      ∧ (∀ e ∈ calculateLeaderboardRankings users,
          e.percentile = calculatePercentile ((e.compositeScore : ℤ) : ℚ)
            (users.map (fun u => JsVal.num ((compositeScoreOf u : ℤ) : ℚ)))))
    ∧ (∀ u : LbUser, compositeScoreOf u =
        round (0.6 * calculateAverageScore (u.interviews.map (fun i => i.score))
          + 0.25 * (100 - calculateStandardDeviation (u.interviews.map (fun i => i.score)))
          + 0.15 * min (2 * (u.interviews.length : ℚ)) 100))
    ∧ (∀ u v : LbUser, u.interviews = v.interviews → compositeScoreOf u = compositeScoreOf v)
    ∧ (∀ u : LbUser,
        (calculateLeaderboardRankings [u, u]).map (fun e => e.rank) = [1, 2]
        ∧ (calculateLeaderboardRankings [u, u]).map (fun e => e.compositeScore) =
            [compositeScoreOf u, compositeScoreOf u]) := by
  have hmain : ∀ users : List LbUser, users ≠ [] →
      calculateLeaderboardRankings users =
        rankLoop ((List.insertionSort (fun a b : LbScored => b.compositeScore ≤ a.compositeScore)
            (users.map scoreUser)).map (fun u => JsVal.num ((u.compositeScore : ℤ) : ℚ))) 0
          (List.insertionSort (fun a b : LbScored => b.compositeScore ≤ a.compositeScore)
            (users.map scoreUser)) := by
    intro users hne
    have hfalse : users.isEmpty = false := by
      simp [List.isEmpty_iff, hne]
    unfold calculateLeaderboardRankings
    rw [hfalse]
    rfl
  refine ⟨?_, ?_, ?_, ?_⟩
  · intro users hne
    refine ⟨?_, ?_, ?_, ?_⟩
    · rw [hmain users hne, rankLoop_map_rank, List.length_insertionSort, List.length_map]
    · rw [hmain users hne, rankLoop_map_composite]
      haveI : IsTotal LbScored (fun a b : LbScored => b.compositeScore ≤ a.compositeScore) :=
        ⟨fun a b => le_total b.compositeScore a.compositeScore⟩
      haveI : IsTrans LbScored (fun a b : LbScored => b.compositeScore ≤ a.compositeScore) :=
        ⟨fun _ _ _ h₁ h₂ => le_trans h₂ h₁⟩
      have hs := List.sorted_insertionSort
        (fun a b : LbScored => b.compositeScore ≤ a.compositeScore) (users.map scoreUser)
      unfold List.Sorted at hs ⊢
      exact (List.pairwise_map).mpr hs
    · rw [hmain users hne, rankLoop_map_composite]
      have hp1 : (List.insertionSort (fun a b : LbScored => b.compositeScore ≤ a.compositeScore)
          (users.map scoreUser)).Perm (users.map scoreUser) :=
        List.perm_insertionSort _ _
      have := hp1.map (fun u : LbScored => u.compositeScore)
      rw [List.map_map] at this
      exact this
    · intro e he
      rw [hmain users hne] at he
      obtain ⟨w, hw, h1, h2⟩ := rankLoop_percentile _ 0 _ e he
      rw [h2, h1]
      apply calculatePercentile_perm
      have hp1 : (List.insertionSort (fun a b : LbScored => b.compositeScore ≤ a.compositeScore)
          (users.map scoreUser)).Perm (users.map scoreUser) :=
        List.perm_insertionSort _ _
      have := hp1.map (fun u : LbScored => JsVal.num ((u.compositeScore : ℤ) : ℚ))
      rw [List.map_map] at this
      exact this
  · intro u
    show round _ = round _
    congr 1
    rw [mul_comm ((u.interviews.length : ℚ)) 2]
    ring
  · intro u v h
    unfold compositeScoreOf
    rw [h]
  · intro u
    have hne : ([u, u] : List LbUser) ≠ [] := by simp
    have hsort : List.insertionSort (fun a b : LbScored => b.compositeScore ≤ a.compositeScore)
        ([u, u].map scoreUser) = [scoreUser u, scoreUser u] := by
      show List.orderedInsert _ (scoreUser u)
        (List.orderedInsert _ (scoreUser u) []) = _
      show List.orderedInsert _ (scoreUser u) [scoreUser u] = _
      unfold List.orderedInsert
      rw [if_pos (le_refl _)]
    constructor
    · rw [hmain [u, u] hne, rankLoop_map_rank, hsort]
      rfl
    · rw [hmain [u, u] hne, rankLoop_map_composite, hsort]
      rfl

/-! ### Witnesses -/

theorem avg_single_70 : calculateAverageScore [.num 70] = 70 := by
  norm_num [calculateAverageScore, validNums, roundTo2,
    show ((70:ℚ) / 1 * 100) = ((7000:ℤ):ℚ) by norm_num, round_intCast]

/-- Witness for C3 at a concrete interview: difficulty hard and a single
question score of 70 give weightedScore 91 and grade A+. -/
theorem interview_metrics_spec_witness :
    (calculateInterviewMetrics ⟨10, 7, 600, [.num 70], "hard"⟩).weightedScore = 91
    ∧ (calculateInterviewMetrics ⟨10, 7, 600, [.num 70], "hard"⟩).grade = "A+" :=
  (interview_metrics_spec ⟨10, 7, 600, [.num 70], "hard"⟩).2.2.2.2.2.2.2 rfl avg_single_70

/-- Witness for C1 at a concrete one-user list. -/
theorem leaderboard_rankings_spec_witness :
    (([(⟨"u1", "Alice", "a.png", [], []⟩ : LbUser)] : List LbUser) ≠ [])
    ∧ ((calculateLeaderboardRankings [(⟨"u1", "Alice", "a.png", [], []⟩ : LbUser)]).map
        (fun e => e.rank) = List.range' 1 1) :=
  ⟨List.cons_ne_nil _ _,
    (leaderboard_rankings_spec.1 [⟨"u1", "Alice", "a.png", [], []⟩]
      (List.cons_ne_nil _ _)).1⟩

/-- Witness for C4 at a concrete one-interview list. -/
theorem progress_improvement_trend_spec_witness :
    (([(⟨0, .num 80, []⟩ : Interview)] : List Interview) ≠ [])
    ∧ (((calculateProgressAnalytics [(⟨0, .num 80, []⟩ : Interview)] 0).improvement =
          calculateAverageScore
            (((sortedScores [(⟨0, .num 80, []⟩ : Interview)]).drop
              ((sortedScores [(⟨0, .num 80, []⟩ : Interview)]).length / 2)).map JsVal.num)
          - calculateAverageScore
            (((sortedScores [(⟨0, .num 80, []⟩ : Interview)]).take
              ((sortedScores [(⟨0, .num 80, []⟩ : Interview)]).length / 2)).map JsVal.num))
        ∧ ((calculateProgressAnalytics [(⟨0, .num 80, []⟩ : Interview)] 0).trend = "improving" ↔
            5 < (calculateProgressAnalytics [(⟨0, .num 80, []⟩ : Interview)] 0).improvement)
        ∧ ((calculateProgressAnalytics [(⟨0, .num 80, []⟩ : Interview)] 0).trend = "declining" ↔
            (calculateProgressAnalytics [(⟨0, .num 80, []⟩ : Interview)] 0).improvement < -5)
        ∧ ((calculateProgressAnalytics [(⟨0, .num 80, []⟩ : Interview)] 0).trend = "neutral" ↔
            (-5 ≤ (calculateProgressAnalytics [(⟨0, .num 80, []⟩ : Interview)] 0).improvement ∧
             (calculateProgressAnalytics [(⟨0, .num 80, []⟩ : Interview)] 0).improvement ≤ 5))) :=
  ⟨List.cons_ne_nil _ _,
    progress_improvement_trend_spec.2 [⟨0, .num 80, []⟩] 0 (List.cons_ne_nil _ _)⟩

/-- Witness for C6 at a concrete user whose single score is 80. -/
theorem readiness_breakdown_bounds_witness :
    (∀ i ∈ ([(⟨0, .num 80, []⟩ : Interview)] : List Interview),
      0 ≤ jsOr0 i.score ∧ jsOr0 i.score ≤ 100)
    ∧ ((0 ≤ (calculateReadinessScore ⟨[⟨0, .num 80, []⟩], []⟩ 0).breakdown.averageScore
        ∧ (calculateReadinessScore ⟨[⟨0, .num 80, []⟩], []⟩ 0).breakdown.averageScore ≤ 100)
      ∧ (0 ≤ (calculateReadinessScore ⟨[⟨0, .num 80, []⟩], []⟩ 0).breakdown.consistency
        ∧ (calculateReadinessScore ⟨[⟨0, .num 80, []⟩], []⟩ 0).breakdown.consistency ≤ 100)) := by
  have hs : ∀ i ∈ ([(⟨0, .num 80, []⟩ : Interview)] : List Interview),
      0 ≤ jsOr0 i.score ∧ jsOr0 i.score ≤ 100 := by
    intro i hi
    rcases List.mem_singleton.1 hi with rfl
    exact ⟨by norm_num [jsOr0], by norm_num [jsOr0]⟩
  exact ⟨hs, readiness_breakdown_bounds.2 ⟨[⟨0, .num 80, []⟩], []⟩ 0 hs⟩
